import Mathlib

set_option maxRecDepth 10000
set_option linter.unusedVariables false

/-!
Verification of the RISC-V 64 processor detection and dispatch code
(`src/processor_riscv64.cpp` together with `src/features_riscv64.h`).

The C++ `FeatureList<4>` is four 32-bit words, i.e. a 128-bit set of
feature bits; we embed it as `Finset (Fin 128)` (the set of set bits;
the data-model invariant "bits beyond the catalog size are always zero"
is enforced by the index type).  Where the code manipulates the packed
32-bit words themselves (scoring, serialization) we recover word `j`
of a set explicitly with `word`.

Notes on the source, recorded here because the embedding must make a
choice:
* `features_riscv64.h` defines the names `zfinx`, `zdinx`, `zhinx`,
  `zhinxmin`, `zvknha`, `zvknhb`, `zvksed`, `zvksh` twice with two
  different bit numbers (a C++ enum rejects such a redefinition).  The
  embedding uses the first definition of each name.
* The dependency table `Feature::deps` mentions `aes`, `sha2`, `sm4`,
  `sm3`, which are not declared anywhere in `features_riscv64.h`.  They
  are modelled as four distinct bit indices (105-108) unused by the
  catalog, which preserves the structure of the edge list.
-/

namespace RISCV64

/-- The C++ `FeatureList<feature_sz>` with `feature_sz = 4`: a 128-bit
feature bitset, embedded as its set of set bit indices. -/
abbrev FeatureList : Type := Finset (Fin 128)

/-- Source constant `feature_sz`: number of 32-bit feature words. -/
def feature_sz : Nat := 4

/-- Source operation `set_bit(features, bit, true)`. -/
def set_bit (features : FeatureList) (bit : Fin 128) : FeatureList :=
  insert bit features

/-- Source operation `test_nbit(features, bit)`. -/
def test_nbit (features : FeatureList) (bit : Fin 128) : Bool :=
  bit ∈ features

namespace Feature

/- Feature bit numbers, from `features_riscv64.h` (first definition of
each name where the header repeats a name). -/

def f : Fin 128 := 1
def d : Fin 128 := 2
def zfinx : Fin 128 := 3
def zdinx : Fin 128 := 4
def zhinx : Fin 128 := 5
def zhinxmin : Fin 128 := 6
def v : Fin 128 := 7
def zve32x : Fin 128 := 8
def zve32f : Fin 128 := 9
def zve64x : Fin 128 := 10
def zve64f : Fin 128 := 11
def zve64d : Fin 128 := 12
def zba : Fin 128 := 13
def zbb : Fin 128 := 14
def zbc : Fin 128 := 15
def zbkb : Fin 128 := 16
def zbkc : Fin 128 := 17
def zbkx : Fin 128 := 18
def zbs : Fin 128 := 19
def zknd : Fin 128 := 20
def zkne : Fin 128 := 21
def zknh : Fin 128 := 22
def zksed : Fin 128 := 23
def zksh : Fin 128 := 24
def zkr : Fin 128 := 25
def zk : Fin 128 := 26
def zvknha : Fin 128 := 27
def zvknhb : Fin 128 := 28
def zvksed : Fin 128 := 29
def zvksh : Fin 128 := 30
def zvkb : Fin 128 := 31
def zvbb : Fin 128 := 32
def zvbc : Fin 128 := 33
def zvfbfmin : Fin 128 := 34
def zvfbfwma : Fin 128 := 35
def zvkg : Fin 128 := 36
def zvkned : Fin 128 := 37
def c : Fin 128 := 64
def zca : Fin 128 := 65
def zcb : Fin 128 := 66
def zcd : Fin 128 := 67
def zcf : Fin 128 := 68
def zcmp : Fin 128 := 69
def zcmt : Fin 128 := 70
def a : Fin 128 := 71
def zalrsc : Fin 128 := 72
def zacas : Fin 128 := 73
def m : Fin 128 := 74
def zmmul : Fin 128 := 75
def zicbom : Fin 128 := 76
def zicbop : Fin 128 := 77
def zicboz : Fin 128 := 78
def s : Fin 128 := 79
def u : Fin 128 := 80
def zicntr : Fin 128 := 81
def zihpm : Fin 128 := 82
def zicond : Fin 128 := 83
def zawrs : Fin 128 := 84
def zfa : Fin 128 := 85
def zfh : Fin 128 := 86
def zfhmin : Fin 128 := 87
def zicclsm : Fin 128 := 96
def zicfilp : Fin 128 := 97
def zicfiss : Fin 128 := 98
def zihintntl : Fin 128 := 99
def zihintpause : Fin 128 := 100
def zihwa : Fin 128 := 101
def zimop : Fin 128 := 102
def ziselect : Fin 128 := 103
def ztso : Fin 128 := 104

/- `aes`, `sha2`, `sm4`, `sm3` appear in `Feature::deps` but are not
declared in `features_riscv64.h`; modelled as fresh unused indices. -/

def aes : Fin 128 := 105
def sha2 : Fin 128 := 106
def sm4 : Fin 128 := 107
def sm3 : Fin 128 := 108

/-- Source table `Feature::deps`, in declaration order (duplicated
entries kept).  Each pair is `(dependent feature, prerequisite)`. -/
def deps : List (Fin 128 × Fin 128) :=
  [(d, f),
   (zfinx, f),
   (zdinx, d),
   (zhinx, f),
   (zhinxmin, f),
   (zve32f, zve32x),
   (zve64f, zve64x),
   (zve64d, zve64f),
   (zve64f, zve32f),
   (zve64x, zve32x),
   (zve32x, v),
   (zve32f, v),
   (zve64x, v),
   (zve64f, v),
   (zve64d, v),
   (zvbb, v),
   (zvbc, v),
   (zvfbfmin, v),
   (zvfbfwma, v),
   (zvkg, v),
   (zvkned, v),
   (zvknha, v),
   (zvknhb, v),
   (zvksed, v),
   (zvksh, v),
   (zvkb, v),
   (zca, c),
   (zcb, c),
   (zcd, c),
   (zcf, c),
   (zcmp, c),
   (zcmt, c),
   (zalrsc, a),
   (zacas, a),
   (zmmul, m),
   (zknd, aes),
   (zkne, aes),
   (zknh, sha2),
   (zksed, sm4),
   (zksh, sm3),
   (zk, zknd),
   (zk, zkne),
   (zk, zknh),
   (zk, zksed),
   (zk, zksh),
   (zk, zkr),
   (zvknha, aes),
   (zvknhb, sha2),
   (zvksed, sm4),
   (zvksh, sm3),
   (zfa, f),
   (zfh, f),
   (zfhmin, f),
   (zfh, zfhmin),
   (zfinx, f),
   (zdinx, d),
   (zhinx, f),
   (zhinxmin, f),
   (zhinx, zhinxmin)]

/- The named baseline feature sets from the source (`get_feature_masks`
unions become `Finset` unions). -/

def generic : FeatureList := ∅
def rv64i : FeatureList := ∅
def rv64im : FeatureList := {m}
def rv64ima : FeatureList := rv64im ∪ {a}
def rv64imaf : FeatureList := rv64ima ∪ {f}
def rv64imafd : FeatureList := rv64imaf ∪ {d}
def rv64imafdc : FeatureList := rv64imafd ∪ {c}
def rv64gc : FeatureList := rv64imafdc
def rv64gcv : FeatureList := rv64gc ∪ {v}
def sifive_u74 : FeatureList := rv64gc ∪ {zba, zbb, zbs, zicbom, zicbop, zicboz}
def sifive_u84 : FeatureList := sifive_u74 ∪ {zicond, zawrs, zfa, zfhmin}
def sifive_u87 : FeatureList := sifive_u84 ∪ {zfh, zicntr, zihpm}
def sifive_u89 : FeatureList := sifive_u87 ∪
  {zicclsm, zicfilp, zicfiss, zihintntl, zihintpause, zihwa, zimop, ziselect, ztso}
def sifive_u9 : FeatureList := sifive_u89

end Feature

/-- The `enum class CPU` from the source. -/
inductive CPU : Type where
  | generic
  | rv64gc
  | rv64gcv
  | rv64imafdc
  | rv64imafdcv
  | sifive_u74
  | sifive_u84
  | sifive_u87
  | sifive_u89
  | sifive_u9
  | sifive_u9a
  | sifive_u9b
  | sifive_u9c
  | sifive_u9d
  | sifive_u9e
  | sifive_u9f
  | sifive_u9g
  | sifive_u9h
  | sifive_u9i
  | sifive_u9j
  | sifive_u9k
  | sifive_u9l
  | sifive_u9m
  | sifive_u9n
  | sifive_u9o
  | sifive_u9p
  | sifive_u9q
  | sifive_u9r
  | sifive_u9s
  | sifive_u9t
  | sifive_u9u
  | sifive_u9v
  | sifive_u9w
  | sifive_u9x
  | sifive_u9y
  | sifive_u9z
  deriving DecidableEq, Repr

/-- Source type `CPUSpec<CPU, feature_sz>`: one entry of the CPU database
(`name`, canonical id, fallback id, minimum LLVM version, feature mask). -/
structure CPUSpec where
  name : String
  cpu : CPU
  fallback : CPU
  llvmver : Nat
  features : FeatureList
  deriving DecidableEq

/-- The static CPU database `cpus[]` from the source, in declaration order. -/
def cpus : List CPUSpec :=
  [⟨"generic", CPU.generic, CPU.generic, 0, Feature.generic⟩,
   ⟨"rv64gc", CPU.rv64gc, CPU.generic, 0, Feature.rv64gc⟩,
   ⟨"rv64gcv", CPU.rv64gcv, CPU.rv64gc, 0, Feature.rv64gcv⟩,
   ⟨"rv64imafdc", CPU.rv64imafdc, CPU.generic, 0, Feature.rv64imafdc⟩,
   ⟨"rv64imafdcv", CPU.rv64imafdcv, CPU.rv64imafdc, 0, Feature.rv64gcv⟩,
   ⟨"sifive-u74-mc", CPU.sifive_u74, CPU.rv64gc, 0, Feature.sifive_u74⟩,
   ⟨"sifive-u84-mc", CPU.sifive_u84, CPU.sifive_u74, 0, Feature.sifive_u84⟩,
   ⟨"sifive-u87-mc", CPU.sifive_u87, CPU.sifive_u84, 0, Feature.sifive_u87⟩,
   ⟨"sifive-u89-mc", CPU.sifive_u89, CPU.sifive_u87, 0, Feature.sifive_u89⟩,
   ⟨"sifive-u9-mc", CPU.sifive_u9, CPU.sifive_u89, 0, Feature.sifive_u9⟩]

/-- Source function `find_cpu(name)`: first database entry with the given name. -/
def find_cpu (name : String) : Option CPUSpec :=
  cpus.find? (fun spec => spec.name = name)

/-- Source function `find_cpu_name(cpu)`: name of the entry with the given id,
defaulting to `"generic"`. -/
def find_cpu_name (cpu : CPU) : String :=
  match cpus.find? (fun spec => spec.cpu = cpu) with
  | some spec => spec.name
  | none => "generic"

/-! ## Dependency engine

`::enable_depends` and `::disable_depends` are declared in
`processor.h`, which is not among the given sources; only the wrappers
in `processor_riscv64.cpp` (which fix the edge list to `Feature::deps`)
are.  The loop bodies are therefore modelled from the spec, §4.1. -/

/-- Modelled from the spec: one full scan of the edge list for enabling
(`::enable_depends` body, `processor.h`): "for every edge (dependent,
prerequisite) where `test(dependent)` is true and `test(prerequisite)`
is false, set prerequisite true". -/
def enable_pass (edges : List (Fin 128 × Fin 128)) (features : FeatureList) :
    FeatureList :=
  edges.foldl
    (fun fs e => if test_nbit fs e.1 && !test_nbit fs e.2 then set_bit fs e.2 else fs)
    features

/-- Modelled from the spec: one full scan of the edge list for disabling
(`::disable_depends` body, `processor.h`): "for every edge where
`test(prerequisite)` is false and `test(dependent)` is true, clear
dependent". -/
def disable_pass (edges : List (Fin 128 × Fin 128)) (features : FeatureList) :
    FeatureList :=
  edges.foldl
    (fun fs e => if !test_nbit fs e.2 && test_nbit fs e.1 then fs.erase e.1 else fs)
    features

/-- Modelled from the spec: "repeat until a full scan makes no change",
with the spec's safe iteration ceiling equal to the catalog size
(128 bits). -/
def close_fix (pass : FeatureList → FeatureList) : Nat → FeatureList → FeatureList
  | 0, fs => fs
  | fuel + 1, fs =>
      let fs2 := pass fs
      if fs2 = fs then fs else close_fix pass fuel fs2

/-- Catalog size: four 32-bit feature words. -/
def catalog_size : Nat := 128

/-- The `enable_depends` wrapper from `processor_riscv64.cpp`: closure of a
feature set under `Feature::deps`, pulling in prerequisites. -/
def enable_depends (features : FeatureList) : FeatureList :=
  close_fix (enable_pass Feature.deps) catalog_size features

/-- The `disable_depends` wrapper from `processor_riscv64.cpp`: closure of a
feature set under `Feature::deps`, pushing out dangling dependents. -/
def disable_depends (features : FeatureList) : FeatureList :=
  close_fix (disable_pass Feature.deps) catalog_size features

/-! ## Packed feature words

The C++ code sometimes works on the packed `uint32_t` words of a
`FeatureList` (scoring, serialization).  `word fs j` is word `j` of the
set `fs`: bit `k` of `word fs j` is set iff feature bit `32*j + k` is in
`fs`. -/

/-- Feature bit number `32*j + k` as an index (total via `% 128`;
callers use `j < 4`, `k < 32`, where no wrap occurs). -/
def mkbit (j k : Nat) : Fin 128 :=
  ⟨(32 * j + k) % 128, Nat.mod_lt _ (by decide)⟩

/-- Word `j` of the packed representation of `fs`. -/
def word (fs : FeatureList) (j : Nat) : Nat :=
  ∑ k in Finset.range 32, cond (decide (mkbit j k ∈ fs)) (2 ^ k) 0

/-- Helper for `llvm::popcount` on a 32-bit word, counting the low `k` bits. -/
def popcountAux : Nat → Nat → Nat
  | 0, _ => 0
  | k + 1, n => n % 2 + popcountAux k (n / 2)

/-- The `llvm::popcount` of a `uint32_t`. -/
def popcount32 (n : Nat) : Nat := popcountAux 32 n

/-! ## Host CPU detection (`_get_host_cpu`)

The I/O part of `_get_host_cpu` (reading `/proc/cpuinfo`) is platform
input; the embedding takes the already-parsed microarchitecture string
and detected feature set and models the selection logic (source lines
356-405). -/

/-- The test `std::string::find(needle) != npos` on character lists: does `hay`
contain `needle` as a contiguous substring? -/
def hasSub (needle : List Char) : List Char → Bool
  | [] => needle.isEmpty
  | ch :: rest => needle.isPrefixOf (ch :: rest) || hasSub needle rest

/-- The `uarch` handling of `_get_host_cpu` (source lines 356-379):
substring tests on the microarchitecture line select a SiFive profile
name, otherwise the name stays `"generic"`. -/
def uarch_to_cpu_name (uarch : String) : String :=
  if hasSub "sifive".data uarch.data then
    if hasSub "u74".data uarch.data then "sifive-u74-mc"
    else if hasSub "u84".data uarch.data then "sifive-u84-mc"
    else if hasSub "u87".data uarch.data then "sifive-u87-mc"
    else if hasSub "u89".data uarch.data then "sifive-u89-mc"
    else if hasSub "u9".data uarch.data then "sifive-u9-mc"
    else "generic"
  else "generic"

/-- The score of one database entry against the detected features
(source lines 387-390): `score += llvm::popcount(features[j] &
cpus[i].features[j])` over all words. -/
def score (features profile : FeatureList) : Nat :=
  ∑ j in Finset.range feature_sz, popcount32 (word features j &&& word profile j)

/-- One iteration of the best-match loop (source lines 386-395). -/
def best_step (features : FeatureList) (best : CPU × Nat) (spec : CPUSpec) :
    CPU × Nat :=
  let sc := score features spec.features
  if sc > best.2 then (spec.cpu, sc) else best

/-- The best-match loop of `_get_host_cpu` (source lines 382-395):
running best CPU id and best score, started at `(generic, 0)`. -/
def best_cpu_score (features : FeatureList) : CPU × Nat :=
  cpus.foldl (best_step features) (CPU.generic, 0)

/-- The final selection of `_get_host_cpu` (source lines 382-405): the
score-based guess, overridden by `find_cpu(cpu_name)` when the
uarch-derived `cpu_name` is not `"generic"` and is found. -/
def select_host_cpu (cpu_name : String) (features : FeatureList) : CPU :=
  let best := (best_cpu_score features).1
  if cpu_name ≠ "generic" then
    match find_cpu cpu_name with
    | some spec => spec.cpu
    | none => best
  else best

/-- Source function `_get_host_cpu` modulo platform input: given the parsed `uarch`
string and detected features, the returned `(cpu, features)` pair. -/
def get_host_cpu_pair (uarch : String) (features : FeatureList) : CPU × FeatureList :=
  (select_host_cpu (uarch_to_cpu_name uarch) features, features)

/-! ## Target descriptors and the resolver -/

/-- Flag bits.  Modelled from the spec: the flag word has "at least:
UNKNOWN_NAME, CLONE_ALL"; the numeric values live in headers outside the
given sources, so two distinct bits are chosen. -/
def JL_TARGET_CLONE_ALL : Nat := 1

/-- Modelled from the spec: the UNKNOWN_NAME flag bit (see
`JL_TARGET_CLONE_ALL`). -/
def JL_TARGET_UNKNOWN_NAME : Nat := 2

/-- Source type `TargetData<feature_sz>`: a target descriptor.  The C++ groups
features and flags into `FeatureConfig en, dis`; flattened here. -/
structure TargetData where
  name : String
  ext_features : String
  en_features : FeatureList
  en_flags : Nat
  dis_features : FeatureList
  dis_flags : Nat
  deriving DecidableEq, Inhabited

/-- The host state `arg_target_data` consults: `host_cpu_name()`,
`get_host_cpu().second`, and the backend's ambient extension feature
string `jl_get_cpu_features_llvm()` (external collaborators, §6). -/
structure HostEnv where
  host_cpu_name : String
  host_features : FeatureList
  cpu_features_llvm : String

/-- Modelled from the spec: `append_ext_features` (in `processor.cpp`,
not among the given sources) appends the backend's ambient extension
feature string to a descriptor's passthrough token string. -/
def append_ext_features (features ext : String) : String :=
  if ext.isEmpty then features
  else if features.isEmpty then ext
  else features ++ "," ++ ext

/-- Source function `arg_target_data` (lines 494-514): resolve one parsed
descriptor.  `native` is replaced by the host name and host features; a
known name uses the database mask; an unknown name gets
`JL_TARGET_UNKNOWN_NAME`.  When a baseline is found, `res.en.features`
is assigned the baseline and closed with `enable_depends`; the ambient
extension string is always appended.  (`require_host` is unused in the
source; kept for signature fidelity.) -/
def arg_target_data (env : HostEnv) (arg : TargetData) (require_host : Bool) :
    TargetData :=
  let res :=
    if arg.name = "native" then
      { arg with name := env.host_cpu_name,
                 en_features := enable_depends env.host_features }
    else
      match find_cpu arg.name with
      | some spec => { arg with en_features := enable_depends spec.features }
      | none => { arg with en_flags := arg.en_flags ||| JL_TARGET_UNKNOWN_NAME }
  { res with ext_features := append_ext_features res.ext_features env.cpu_features_llvm }

/-- The resolver step as claim C1 (spec §4.4) describes it, for
comparison with `arg_target_data`: apply `enable_depends` to the merged
(baseline ∪ explicit-enable) set, then zero out explicit-disable bits,
then apply `disable_depends` to remove now-dangling dependents. -/
def arg_target_data_claim (env : HostEnv) (arg : TargetData) (require_host : Bool) :
    TargetData :=
  let baseline :=
    if arg.name = "native" then env.host_features
    else
      match find_cpu arg.name with
      | some spec => spec.features
      | none => (∅ : FeatureList)
  let name := if arg.name = "native" then env.host_cpu_name else arg.name
  let flags :=
    if arg.name = "native" then arg.en_flags
    else
      match find_cpu arg.name with
      | some _ => arg.en_flags
      | none => arg.en_flags ||| JL_TARGET_UNKNOWN_NAME
  { arg with
      name := name,
      en_features := disable_depends ((enable_depends (baseline ∪ arg.en_features)) \ arg.dis_features),
      en_flags := flags,
      ext_features := append_ext_features arg.ext_features env.cpu_features_llvm }

/-! ## Target list construction (`ensure_jit_target`,
`jl_get_llvm_clone_targets`) -/

/-- The per-descriptor resolution loop: `arg_target_data(arg,
targets.empty())`, i.e. `require_host` is true exactly for the first
descriptor (the accumulating list is empty only then). -/
def resolve_targets (env : HostEnv) : List TargetData → Bool → List TargetData
  | [], _ => []
  | arg :: rest, first =>
      arg_target_data env arg first :: resolve_targets env rest false

/-- The update `t.en.flags |= JL_TARGET_CLONE_ALL` on one target. -/
def mark_clone_all (t : TargetData) : TargetData :=
  { t with en_flags := t.en_flags ||| JL_TARGET_CLONE_ALL }

/-- The CLONE_ALL marking loop (`for i in 1..<ntargets: t.en.flags |=
JL_TARGET_CLONE_ALL`): every element after the first gets the flag. -/
def set_clone_all : List TargetData → List TargetData
  | [] => []
  | t0 :: rest => t0 :: rest.map mark_clone_all

/-- Source function `ensure_jit_target` (lines 547-562), restricted to the case
`jit_targets` was empty: the new JIT target list built from the parsed
command-line targets. -/
def ensure_jit_target (env : HostEnv) (cmdline : List TargetData) : List TargetData :=
  set_clone_all (resolve_targets env cmdline true)

/-- The `image_targets` list of `jl_get_llvm_clone_targets` (source
lines 626-635): identical construction to `ensure_jit_target`. -/
def clone_targets_list (env : HostEnv) (cmdline : List TargetData) : List TargetData :=
  set_clone_all (resolve_targets env cmdline true)

/-! ## Serialization codec

`serialize_target_data` / `deserialize_target_data` live in
`processor.cpp`, which is not among the given sources; the codec is
modelled from the spec, §4.5.  The byte stream is abstracted to a list
of naturals (one per encoded field element). -/

/-- A deserialized per-target record, per the spec's per-descriptor
field list: name, enabled feature words, extension token list, flags. -/
structure ImgTarget where
  name : String
  en_features : FeatureList
  ext_features : List String
  flags : Nat
  deriving DecidableEq, Inhabited

/-- Modelled from the spec: the codec's format/catalog-version field. -/
def FORMAT_VERSION : Nat := 1

/-- Modelled from the spec: a length-prefixed string. -/
def encode_string (str : String) : List Nat :=
  str.length :: str.data.map Char.toNat

/-- Modelled from the spec: the enabled feature words, one word per
catalog word. -/
def encode_features (fs : FeatureList) : List Nat :=
  (List.range feature_sz).map (word fs)

/-- Modelled from the spec: one descriptor, fields in fixed order: name
(length-prefixed), enabled feature words, extension token list
(length-prefixed strings), flags. -/
def encode_target (t : ImgTarget) : List Nat :=
  encode_string t.name ++ encode_features t.en_features ++
    (t.ext_features.length :: (t.ext_features.map encode_string).flatten) ++ [t.flags]

/-- Modelled from the spec: a version field, a feature-word count field,
a target count, then the descriptors in order. -/
def serialize_target_data (ts : List ImgTarget) : List Nat :=
  FORMAT_VERSION :: feature_sz :: ts.length :: (ts.map encode_target).flatten

/-- Modelled from the spec: the decoder primitive taking `n` elements off the stream, failing if it is too short. -/
def read_take (n : Nat) (s : List Nat) : Option (List Nat × List Nat) :=
  if n ≤ s.length then some (s.take n, s.drop n) else none

/-- Modelled from the spec: read one length-prefixed string. -/
def read_string (s : List Nat) : Option (String × List Nat) :=
  match s with
  | [] => none
  | len :: rest =>
      (read_take len rest).map (fun p => (String.mk (p.1.map Char.ofNat), p.2))

/-- Modelled from the spec: rebuild a feature set from stored words: stored words beyond the
reader's width are dropped, missing high words read as zero (the spec's
graceful-degradation rule; `getD` supplies the zeros). -/
def decode_features (ws : List Nat) : FeatureList :=
  Finset.univ.filter (fun b => (ws.getD (b.val / 32) 0).testBit (b.val % 32) = true)

/-- Modelled from the spec: read `n` length-prefixed strings. -/
def read_strings : Nat → List Nat → Option (List String × List Nat)
  | 0, s => some ([], s)
  | n + 1, s => do
      let (x, s1) ← read_string s
      let (xs, s2) ← read_strings n s1
      pure (x :: xs, s2)

/-- Modelled from the spec: read one descriptor, given the stored feature-word count. -/
def read_target (wc : Nat) (s : List Nat) : Option (ImgTarget × List Nat) := do
  let (name, s1) ← read_string s
  let (ws, s2) ← read_take wc s1
  match s2 with
  | [] => none
  | next :: s3 => do
      let (exts, s4) ← read_strings next s3
      match s4 with
      | [] => none
      | flags :: s5 =>
          some (⟨name, decode_features (ws.take feature_sz), exts, flags⟩, s5)

/-- Modelled from the spec: read `n` descriptors. -/
def read_targets (wc : Nat) : Nat → List Nat → Option (List ImgTarget)
  | 0, _ => some []
  | n + 1, s => do
      let (t, s1) ← read_target wc s
      let ts ← read_targets wc n s1
      pure (t :: ts)

/-- Modelled from the spec: decode a serialized target list; rejects a
version mismatch, degrades gracefully on a word-count mismatch. -/
def deserialize_target_data (s : List Nat) : Option (List ImgTarget) :=
  match s with
  | ver :: wc :: cnt :: rest =>
      if ver = FORMAT_VERSION then read_targets wc cnt rest else none
  | _ => none

/-! ## Image matching callbacks and the process state machine -/

/-- The name-match loop shared by `sysimg_init_cb` and `pkgimg_init_cb`:
`for i: if (imgt.name == target.name) best_idx = i`, i.e. the LAST
matching index wins; `best` starts at 0. -/
def best_idx_loop (name : String) : List ImgTarget → Nat → Nat → Nat
  | [], _, best => best
  | t :: ts, i, best =>
      best_idx_loop name ts (i + 1) (if t.name = name then i else best)

/-- The match loop applied from the start: index of the last entry named
`name`, else 0. -/
def last_match_idx (name : String) (l : List ImgTarget) : Nat :=
  best_idx_loop name l 0 0

/-- Source function `sysimg_init_cb` (lines 516-531), with the deserialized
system image target list and parsed command line as inputs: resolves the
primary target, picks the matching image entry, and appends the target
to `jit_targets`.  Returns `(best_idx, new jit_targets)`. -/
def sysimg_init_cb (env : HostEnv) (cmdline : List TargetData)
    (sysimg : List ImgTarget) (jit_targets : List TargetData) :
    Nat × List TargetData :=
  let target := arg_target_data env cmdline.headI true
  (last_match_idx target.name sysimg, jit_targets ++ [target])

/-- Source function `pkgimg_init_cb` (lines 533-545): matches the deserialized
package image list against `jit_targets.front()`.  The second component
is the `rejection_reason` out-parameter, which the source never writes
(it stays `none`). -/
def pkgimg_init_cb (jit_targets : List TargetData) (pkgimg : List ImgTarget) :
    Nat × Option String :=
  let target := jit_targets.headI
  (last_match_idx target.name pkgimg, none)

/-- The constant `UINT32_MAX`. -/
def UINT32_MAX : Nat := 2 ^ 32 - 1

/-- Result of `jl_check_pkgimage_clones`: `accepted` is `jl_nothing`,
`rejected r` is the returned rejection-reason value. -/
inductive CheckResult : Type where
  | accepted
  | rejected (reason : Option String)
  deriving DecidableEq

/-- Source function `jl_check_pkgimage_clones` (lines 672-681): runs
`pkgimg_init_cb` and returns the rejection reason iff the match index is
`UINT32_MAX`, else `jl_nothing`. -/
def jl_check_pkgimage_clones (jit_targets : List TargetData)
    (pkgimg : List ImgTarget) : CheckResult :=
  if (pkgimg_init_cb jit_targets pkgimg).1 = UINT32_MAX then
    CheckResult.rejected (pkgimg_init_cb jit_targets pkgimg).2
  else CheckResult.accepted

/-- Source function `jl_init_processor_sysimg` (lines 591-596): guard against a
double primary initialization, then run the system image callback.
`parse_sysimg` is external; it is modelled as invoking the callback on
the image's deserialized target list. -/
def jl_init_processor_sysimg (jit_targets : List TargetData) (env : HostEnv)
    (cmdline : List TargetData) (sysimg : List ImgTarget) :
    Except String (Nat × List TargetData) :=
  if !jit_targets.isEmpty then Except.error "JIT targets already initialized"
  else Except.ok (sysimg_init_cb env cmdline sysimg jit_targets)

/-- Source function `jl_init_processor_pkgimg` (lines 598-605): guards (not
initialized; more than one JIT target), then the package image
callback. -/
def jl_init_processor_pkgimg (jit_targets : List TargetData)
    (pkgimg : List ImgTarget) : Except String (Nat × Option String) :=
  if jit_targets.isEmpty then Except.error "JIT targets not initialized"
  else if jit_targets.length > 1 then Except.error "Expected only one JIT target"
  else Except.ok (pkgimg_init_cb jit_targets pkgimg)

/-! ## Feature queries and floating-point mode controls -/

/-- Source function `jl_cpu_has_fma` (lines 652-664), on the detected host
feature set; `true`/`false` stand for the boxed booleans. -/
def jl_cpu_has_fma (host_features : FeatureList) (bits : Int) : Bool :=
  if bits = 32 then
    test_nbit host_features Feature.f && test_nbit host_features Feature.zfa
  else if bits = 64 then
    test_nbit host_features Feature.d && test_nbit host_features Feature.zfa
  else false

/-- Source function `jl_get_zero_subnormals` (lines 689-693): no flag on RISC-V,
returns 0 and reads no state. -/
def jl_get_zero_subnormals : Int := 0

/-- Source function `jl_set_zero_subnormals` (lines 695-699): unsupported,
returns the input unchanged and writes no state. -/
def jl_set_zero_subnormals (isZero : Int) : Int := isZero

/-- Source function `jl_get_default_nans` (lines 701-705): no flag on RISC-V,
returns 0 and reads no state. -/
def jl_get_default_nans : Int := 0

/-- Source function `jl_set_default_nans` (lines 707-711): unsupported, returns
the input unchanged and writes no state. -/
def jl_set_default_nans (isDefault : Int) : Int := isDefault

lemma enable_pass_subset (edges : List (Fin 128 × Fin 128)) :
    ∀ fs : FeatureList, fs ⊆ enable_pass edges fs := by
  induction edges with
  | nil => intro fs; exact fun b hb => hb
  | cons e t ih =>
      intro fs
      show fs ⊆ List.foldl _ _ (e :: t)
      rw [List.foldl_cons]
      refine subset_trans ?_ (ih _)
      by_cases h : (test_nbit fs e.1 && !test_nbit fs e.2) = true
      · simp only [h, if_true]
        exact Finset.subset_insert _ _
      · simp [h]

lemma disable_pass_subset (edges : List (Fin 128 × Fin 128)) :
    ∀ fs : FeatureList, disable_pass edges fs ⊆ fs := by
  induction edges with
  | nil => intro fs; exact fun b hb => hb
  | cons e t ih =>
      intro fs
      show List.foldl _ _ (e :: t) ⊆ fs
      rw [List.foldl_cons]
      refine subset_trans (ih _) ?_
      by_cases h : (!test_nbit fs e.2 && test_nbit fs e.1) = true
      · simp only [h, if_true]
        exact Finset.erase_subset _ _
      · simp [h]

lemma close_fix_of_fixed (pass : FeatureList → FeatureList) (fuel : Nat)
    (fs : FeatureList) (h : pass fs = fs) : close_fix pass fuel fs = fs := by
  cases fuel with
  | zero => rfl
  | succ n => simp [close_fix, h]

lemma card_le_catalog (fs : FeatureList) : fs.card ≤ 128 := by
  have h := Finset.card_le_univ fs
  simpa using h

lemma close_fix_grow_fixed (pass : FeatureList → FeatureList)
    (hgrow : ∀ fs, fs ⊆ pass fs) :
    ∀ (fuel : Nat) (fs : FeatureList), 128 ≤ fs.card + fuel →
      pass (close_fix pass fuel fs) = close_fix pass fuel fs := by
  intro fuel
  induction fuel with
  | zero =>
      intro fs hcard
      have hc : fs.card = 128 := le_antisymm (card_le_catalog fs) (by simpa using hcard)
      have huniv : fs = Finset.univ := by
        refine Finset.card_eq_iff_eq_univ fs |>.mp ?_
        simpa using hc
      have : pass fs = fs := by
        refine subset_antisymm ?_ (hgrow fs)
        rw [huniv]; exact Finset.subset_univ _
      simpa [close_fix] using this
  | succ n ih =>
      intro fs hcard
      by_cases h : pass fs = fs
      · rw [close_fix_of_fixed pass (n + 1) fs h]
        exact h
      · have hstep : close_fix pass (n + 1) fs = close_fix pass n (pass fs) := by
          simp [close_fix, h]
        rw [hstep]
        refine ih (pass fs) ?_
        have hsub : fs ⊂ pass fs := ssubset_of_subset_of_ne (hgrow fs) (Ne.symm h)
        have hlt : fs.card < (pass fs).card := Finset.card_lt_card hsub
        omega

lemma close_fix_shrink_fixed (pass : FeatureList → FeatureList)
    (hshrink : ∀ fs, pass fs ⊆ fs) :
    ∀ (fuel : Nat) (fs : FeatureList), fs.card ≤ fuel →
      pass (close_fix pass fuel fs) = close_fix pass fuel fs := by
  intro fuel
  induction fuel with
  | zero =>
      intro fs hcard
      have hc : fs = ∅ := Finset.card_eq_zero.mp (Nat.le_zero.mp hcard)
      have : pass fs = fs := by
        refine subset_antisymm (hshrink fs) ?_
        rw [hc]; exact Finset.empty_subset _
      simpa [close_fix] using this
  | succ n ih =>
      intro fs hcard
      by_cases h : pass fs = fs
      · rw [close_fix_of_fixed pass (n + 1) fs h]
        exact h
      · have hstep : close_fix pass (n + 1) fs = close_fix pass n (pass fs) := by
          simp [close_fix, h]
        rw [hstep]
        refine ih (pass fs) ?_
        have hsub : pass fs ⊂ fs := ssubset_of_subset_of_ne (hshrink fs) h
        have hlt : (pass fs).card < fs.card := Finset.card_lt_card hsub
        omega

/-! ## Bit-level facts about packed feature words -/

lemma testBit_bitsum :
    ∀ (n : Nat) (f : Nat → Bool) (t : Nat),
      (∑ k in Finset.range n, cond (f k) (2 ^ k) 0).testBit t = (decide (t < n) && f t) := by
  intro n
  induction n with
  | zero => intro f t; simp
  | succ n ih =>
      intro f t
      have hterm : ∀ k, cond (f (k + 1)) (2 ^ (k + 1)) 0 = cond (f (k + 1)) (2 ^ k) 0 * 2 := by
        intro k; cases f (k + 1) <;> simp [pow_succ]
      have hsplit : (∑ k in Finset.range (n + 1), cond (f k) (2 ^ k) 0)
          = 2 * (∑ k in Finset.range n, cond (f (k + 1)) (2 ^ k) 0) + cond (f 0) 1 0 := by
        rw [Finset.sum_range_succ' (fun k => cond (f k) (2 ^ k) 0) n]
        rw [Finset.sum_congr rfl (fun k _ => hterm k), ← Finset.sum_mul]
        cases f 0 <;> simp [Nat.mul_comm]
      rw [hsplit]
      cases t with
      | zero =>
          rw [Nat.testBit_zero]
          rw [Nat.mul_add_mod 2 _ (cond (f 0) 1 0)]
          cases f 0 <;> simp
      | succ t =>
          rw [Nat.testBit_succ]
          have hdiv : (2 * (∑ k in Finset.range n, cond (f (k + 1)) (2 ^ k) 0) + cond (f 0) 1 0) / 2
              = ∑ k in Finset.range n, cond (f (k + 1)) (2 ^ k) 0 := by
            rw [Nat.mul_add_div (by norm_num)]
            cases f 0 <;> simp
          rw [hdiv, ih (fun k => f (k + 1)) t]
          by_cases h : t < n
          · simp [h, Nat.succ_lt_succ h]
          · have h2 : ¬ (t + 1 < n + 1) := by omega
            simp [h, h2]

lemma word_testBit (fs : FeatureList) (j k : Nat) (hk : k < 32) :
    (word fs j).testBit k = decide (mkbit j k ∈ fs) := by
  unfold word
  rw [testBit_bitsum 32 (fun k => decide (mkbit j k ∈ fs)) k]
  simp [hk]

lemma mkbit_recompose (b : Fin 128) : mkbit (b.val / 32) (b.val % 32) = b := by
  unfold mkbit
  apply Fin.ext
  show (32 * (b.val / 32) + b.val % 32) % 128 = b.val
  rw [Nat.div_add_mod b.val 32]
  exact Nat.mod_eq_of_lt b.isLt

lemma encode_features_eval (fs : FeatureList) :
    encode_features fs = [word fs 0, word fs 1, word fs 2, word fs 3] := rfl

lemma getD_words (fs : FeatureList) (i : Nat) (h : i < 4) :
    (encode_features fs).getD i 0 = word fs i := by
  rw [encode_features_eval]
  interval_cases i <;> rfl

lemma decode_encode_features (fs : FeatureList) :
    decode_features (encode_features fs) = fs := by
  unfold decode_features
  ext b
  have hdivlt : b.val / 32 < 4 := by
    have := b.isLt
    omega
  have hmodlt : b.val % 32 < 32 := Nat.mod_lt _ (by decide)
  rw [Finset.mem_filter]
  rw [getD_words fs _ hdivlt]
  rw [word_testBit fs _ _ hmodlt]
  rw [mkbit_recompose b]
  simp

/-! ## Codec round-trip lemmas -/

lemma read_take_append (l rest : List Nat) :
    read_take l.length (l ++ rest) = some (l, rest) := by
  unfold read_take
  rw [if_pos]
  · rw [List.take_left, List.drop_left]
  · simp

lemma read_string_encode (str : String) (rest : List Nat) :
    read_string (encode_string str ++ rest) = some (str, rest) := by
  unfold read_string encode_string
  simp only [List.cons_append]
  have hlen : str.length = (str.data.map Char.toNat).length := by
    simp only [List.length_map]
    rfl
  rw [hlen, read_take_append]
  simp only [Option.map_some']
  rw [List.map_map]
  have hid : str.data.map (Char.ofNat ∘ Char.toNat) = str.data := by
    rw [List.map_congr_left (fun ch _ => ?_), List.map_id]
    exact Char.ofNat_toNat ch
  rw [hid]

lemma read_strings_encode (exts : List String) (rest : List Nat) :
    read_strings exts.length ((exts.map encode_string).flatten ++ rest) =
      some (exts, rest) := by
  induction exts generalizing rest with
  | nil => simp [read_strings]
  | cons x xs ih =>
      show read_strings (xs.length + 1) _ = _
      rw [read_strings]
      simp only [List.map_cons, List.flatten_cons, List.append_assoc]
      rw [read_string_encode x _]
      simp only [Option.bind_eq_bind, Option.some_bind]
      rw [ih]
      rfl

lemma encode_features_length (fs : FeatureList) :
    (encode_features fs).length = feature_sz := by
  simp [encode_features]

lemma take_encode_features (fs : FeatureList) :
    (encode_features fs).take feature_sz = encode_features fs :=
  List.take_of_length_le (le_of_eq (encode_features_length fs))

lemma read_target_encode (t : ImgTarget) (rest : List Nat) :
    read_target feature_sz (encode_target t ++ rest) = some (t, rest) := by
  unfold read_target encode_target
  simp only [List.append_assoc, List.cons_append]
  rw [read_string_encode t.name _]
  simp only [Option.bind_eq_bind, Option.some_bind]
  have hwc : feature_sz = (encode_features t.en_features).length :=
    (encode_features_length t.en_features).symm
  rw [hwc, read_take_append]
  simp only [Option.bind_eq_bind, Option.some_bind]
  rw [read_strings_encode t.ext_features _]
  simp only [Option.bind_eq_bind, Option.some_bind, List.cons_append, List.nil_append]
  rw [← hwc, take_encode_features, decode_encode_features]

lemma read_targets_encode (ts : List ImgTarget) (rest : List Nat) :
    read_targets feature_sz ts.length ((ts.map encode_target).flatten ++ rest) =
      some ts := by
  induction ts generalizing rest with
  | nil => simp [read_targets]
  | cons t ts ih =>
      show read_targets feature_sz (ts.length + 1) _ = _
      rw [read_targets]
      simp only [List.map_cons, List.flatten_cons, List.append_assoc]
      rw [read_target_encode t _]
      simp only [Option.bind_eq_bind, Option.some_bind]
      rw [ih]
      rfl

/-! ## Facts about the best-match fold -/

lemma word_empty (j : Nat) : word (∅ : FeatureList) j = 0 := by
  unfold word
  simp

lemma popcountAux_zero : ∀ k, popcountAux k 0 = 0 := by
  intro k
  induction k with
  | zero => rfl
  | succ k ih => simp [popcountAux, ih]

lemma score_generic (features : FeatureList) : score features Feature.generic = 0 := by
  unfold score
  refine Finset.sum_eq_zero ?_
  intro j hj
  rw [show word Feature.generic j = 0 from word_empty j]
  rw [Nat.and_zero]
  exact popcountAux_zero 32

lemma foldl_best_spec (features : FeatureList) :
    ∀ (l : List CPUSpec) (b : CPU × Nat),
      b.2 ≤ (List.foldl (best_step features) b l).2 ∧
      (∀ i, (hi : i < l.length) →
        score features (l.get ⟨i, hi⟩).features ≤ (List.foldl (best_step features) b l).2) ∧
      (List.foldl (best_step features) b l = b ∨
        ∃ j, ∃ hj : j < l.length,
          List.foldl (best_step features) b l =
            ((l.get ⟨j, hj⟩).cpu, score features (l.get ⟨j, hj⟩).features) ∧
          b.2 < (List.foldl (best_step features) b l).2 ∧
          ∀ i, (hi : i < l.length) → i < j →
            score features (l.get ⟨i, hi⟩).features < (List.foldl (best_step features) b l).2) := by
  intro l
  induction l with
  | nil =>
      intro b
      exact ⟨le_refl _, fun i hi => absurd hi (Nat.not_lt_zero i), Or.inl rfl⟩
  | cons spec rest ih =>
      intro b
      rw [List.foldl_cons]
      obtain ⟨A, B, C⟩ := ih (best_step features b spec)
      have hb2 : b.2 ≤ (best_step features b spec).2 := by
        unfold best_step
        by_cases h : score features spec.features > b.2
        · simp only [h, if_true]
          exact le_of_lt h
        · simp only [h, if_false]
          exact le_refl _
      have hsc : score features spec.features ≤ (best_step features b spec).2 := by
        unfold best_step
        by_cases h : score features spec.features > b.2
        · simp only [h, if_true]
          exact le_refl _
        · simp only [h, if_false]
          omega
      refine ⟨le_trans hb2 A, ?_, ?_⟩
      · intro i hi
        cases i with
        | zero => exact le_trans hsc A
        | succ i2 => exact B i2 (Nat.lt_of_succ_lt_succ hi)
      · rcases C with hC | ⟨j, hj, hF, hlt, hearlier⟩
        · by_cases h : score features spec.features > b.2
          · refine Or.inr ⟨0, Nat.succ_pos _, ?_, ?_, ?_⟩
            · rw [hC]
              unfold best_step
              simp only [h, if_true]
              rfl
            · rw [hC]
              have : (best_step features b spec).2 = score features spec.features := by
                unfold best_step
                simp only [h, if_true]
              omega
            · intro i hi hij
              exact absurd hij (Nat.not_lt_zero i)
          · refine Or.inl ?_
            rw [hC]
            unfold best_step
            simp only [h, if_false]
        · refine Or.inr ⟨j + 1, Nat.succ_lt_succ hj, hF, lt_of_le_of_lt hb2 hlt, ?_⟩
          intro i hi hij
          cases i with
          | zero => exact lt_of_le_of_lt hsc hlt
          | succ i2 =>
              exact hearlier i2 (Nat.lt_of_succ_lt_succ hi) (Nat.lt_of_succ_lt_succ hij)

/-! ## Facts about the name-match loop -/

lemma best_idx_loop_spec (name : String) :
    ∀ (l : List ImgTarget) (i best : Nat),
      (best_idx_loop name l i best = best ∧
        ∀ j, (hj : j < l.length) → (l.get ⟨j, hj⟩).name ≠ name) ∨
      (∃ j, ∃ hj : j < l.length,
        (l.get ⟨j, hj⟩).name = name ∧
        best_idx_loop name l i best = i + j ∧
        ∀ j2, (hj2 : j2 < l.length) → j < j2 → (l.get ⟨j2, hj2⟩).name ≠ name) := by
  intro l
  induction l with
  | nil =>
      intro i best
      exact Or.inl ⟨rfl, fun j hj => absurd hj (Nat.not_lt_zero j)⟩
  | cons t ts ih =>
      intro i best
      rw [best_idx_loop]
      rcases ih (i + 1) (if t.name = name then i else best) with
        ⟨hres, hnone⟩ | ⟨j, hj, hname, hres, hafter⟩
      · by_cases ht : t.name = name
        · refine Or.inr ⟨0, Nat.succ_pos _, ht, ?_, ?_⟩
          · rw [hres, if_pos ht]
            omega
          · intro j2 hj2 h0
            cases j2 with
            | zero => omega
            | succ j3 => exact hnone j3 (Nat.lt_of_succ_lt_succ hj2)
        · refine Or.inl ⟨?_, ?_⟩
          · rw [hres, if_neg ht]
          · intro j hj2
            cases j with
            | zero => exact ht
            | succ j3 => exact hnone j3 (Nat.lt_of_succ_lt_succ hj2)
      · refine Or.inr ⟨j + 1, Nat.succ_lt_succ hj, hname, ?_, ?_⟩
        · rw [hres]
          omega
        · intro j2 hj2 hlt
          cases j2 with
          | zero => omega
          | succ j3 =>
              exact hafter j3 (Nat.lt_of_succ_lt_succ hj2) (Nat.lt_of_succ_lt_succ hlt)

/-! ## Facts about the CLONE_ALL marking step -/

lemma flag_or_and_ne_zero (x : Nat) :
    (x ||| JL_TARGET_CLONE_ALL) &&& JL_TARGET_CLONE_ALL ≠ 0 := by
  intro h
  have h0 : ((x ||| JL_TARGET_CLONE_ALL) &&& JL_TARGET_CLONE_ALL).testBit 0 = true := by
    rw [Nat.testBit_land, Nat.testBit_lor]
    rw [show JL_TARGET_CLONE_ALL = 1 from rfl]
    simp
  rw [h] at h0
  simp at h0

lemma map_mark_get :
    ∀ (rest : List TargetData) (i : Nat) (hi : i < (rest.map mark_clone_all).length),
      ((rest.map mark_clone_all).get ⟨i, hi⟩).en_flags &&& JL_TARGET_CLONE_ALL ≠ 0 := by
  intro rest
  induction rest with
  | nil =>
      intro i hi
      simp at hi
  | cons t ts ih =>
      intro i hi
      cases i with
      | zero => exact flag_or_and_ne_zero t.en_flags
      | succ i2 =>
          have hi2 : i2 < (ts.map mark_clone_all).length := by
            simp at hi ⊢
            omega
          exact ih i2 hi2

lemma set_clone_all_get_tail :
    ∀ (l : List TargetData) (i : Nat) (hi : i < (set_clone_all l).length), 1 ≤ i →
      ((set_clone_all l).get ⟨i, hi⟩).en_flags &&& JL_TARGET_CLONE_ALL ≠ 0 := by
  intro l i hi h1
  cases l with
  | nil => simp [set_clone_all] at hi
  | cons t0 rest =>
      cases i with
      | zero => omega
      | succ i2 =>
          have hi2 : i2 < (rest.map mark_clone_all).length := by
            simp [set_clone_all] at hi ⊢
            omega
          exact map_mark_get rest i2 hi2

lemma set_clone_all_headI (l : List TargetData) :
    (set_clone_all l).headI = l.headI := by
  cases l <;> rfl

lemma catalog_size_eq : catalog_size = 128 := rfl

/-! ## Claim C1 -/

/-- C1, counterexample: the claim says the resolver computes the final
feature set as `disable_depends ((enable_depends (baseline ∪ enable)) \\
disable)`.  For the descriptor `rv64gc` with explicit disable `{c}`, the
code keeps `c` enabled: `arg_target_data` overwrites `en.features` with
the baseline, never clears explicit-disable bits and never calls
`disable_depends`, so it differs from the claimed formula. -/
theorem c1_counterexample :
    Feature.c ∈ (arg_target_data ⟨"generic", ∅, ""⟩
        ⟨"rv64gc", "", ∅, 0, {Feature.c}, 0⟩ true).en_features ∧
    Feature.c ∉ (arg_target_data_claim ⟨"generic", ∅, ""⟩
        ⟨"rv64gc", "", ∅, 0, {Feature.c}, 0⟩ true).en_features ∧
    (arg_target_data ⟨"generic", ∅, ""⟩
        ⟨"rv64gc", "", ∅, 0, {Feature.c}, 0⟩ true).en_features ≠
      (arg_target_data_claim ⟨"generic", ∅, ""⟩
        ⟨"rv64gc", "", ∅, 0, {Feature.c}, 0⟩ true).en_features := by
  refine ⟨by decide, by decide, ?_⟩
  intro h
  have hc : Feature.c ∈ (arg_target_data_claim ⟨"generic", ∅, ""⟩
      ⟨"rv64gc", "", ∅, 0, {Feature.c}, 0⟩ true).en_features := by
    rw [← h]
    decide
  exact absurd hc (by decide)

attribute [irreducible] catalog_size enable_pass disable_pass

lemma enable_depends_fixed (fs : FeatureList) :
    enable_pass Feature.deps (enable_depends fs) = enable_depends fs := by
  unfold enable_depends
  exact close_fix_grow_fixed (enable_pass Feature.deps)
    (enable_pass_subset Feature.deps) catalog_size fs
    (by rw [catalog_size_eq]; exact Nat.le_add_left 128 fs.card)

lemma disable_depends_fixed (fs : FeatureList) :
    disable_pass Feature.deps (disable_depends fs) = disable_depends fs := by
  unfold disable_depends
  exact close_fix_shrink_fixed (disable_pass Feature.deps)
    (disable_pass_subset Feature.deps) catalog_size fs
    (by rw [catalog_size_eq]; exact card_le_catalog fs)

/-! ## Claim C8 -/

/-- C8: dependency closure over the static RISC-V edge list is
idempotent: for every FeatureSet `S`, `enable_depends (enable_depends S)
= enable_depends S`, and likewise for `disable_depends`. -/
theorem c8_closure_idempotent :
    ∀ S : FeatureList,
      enable_depends (enable_depends S) = enable_depends S ∧
      disable_depends (disable_depends S) = disable_depends S := by
  intro S
  constructor
  · show close_fix (enable_pass Feature.deps) catalog_size (enable_depends S)
        = enable_depends S
    exact close_fix_of_fixed _ catalog_size _ (enable_depends_fixed S)
  · show close_fix (disable_pass Feature.deps) catalog_size (disable_depends S)
        = disable_depends S
    exact close_fix_of_fixed _ catalog_size _ (disable_depends_fixed S)

/-- C1, amended: for every descriptor naming a known profile, the
resolver sets the feature set to `enable_depends` of the profile's
baseline mask alone — the explicit enable mask is discarded, the
explicit disable bits are not cleared (the disable mask is carried
through untouched, as is the flag word), and `disable_depends` is not
applied. -/
theorem c1_resolver_baseline_only :
    ∀ (env : HostEnv) (arg : TargetData) (rh : Bool) (spec : CPUSpec),
      find_cpu arg.name = some spec → arg.name ≠ "native" →
      (arg_target_data env arg rh).en_features = enable_depends spec.features ∧
      (arg_target_data env arg rh).dis_features = arg.dis_features ∧
      (arg_target_data env arg rh).en_flags = arg.en_flags := by
  intro env arg rh spec hfind hname
  unfold arg_target_data
  simp only [hname, if_false, hfind]
  simp

/-- C1 witness: the amended theorem applied to the `rv64gc` descriptor
with explicit disable `{c}`. -/
theorem c1_resolver_baseline_only_witness :
    (arg_target_data ⟨"generic", ∅, ""⟩
        ⟨"rv64gc", "", ∅, 0, {Feature.c}, 0⟩ true).en_features
      = enable_depends Feature.rv64gc ∧
    (arg_target_data ⟨"generic", ∅, ""⟩
        ⟨"rv64gc", "", ∅, 0, {Feature.c}, 0⟩ true).dis_features = {Feature.c} ∧
    (arg_target_data ⟨"generic", ∅, ""⟩
        ⟨"rv64gc", "", ∅, 0, {Feature.c}, 0⟩ true).en_flags = 0 :=
  c1_resolver_baseline_only ⟨"generic", ∅, ""⟩ ⟨"rv64gc", "", ∅, 0, {Feature.c}, 0⟩
    true ⟨"rv64gc", CPU.rv64gc, CPU.generic, 0, Feature.rv64gc⟩ (by decide) (by decide)

/-! ## Claim C2 -/

/-- C2: deserializing the bytes produced by serializing a TargetList
yields the original list — order, names, enabled feature words,
extension tokens and flags are all preserved. -/
theorem c2_roundtrip :
    ∀ ts : List ImgTarget,
      deserialize_target_data (serialize_target_data ts) = some ts := by
  intro ts
  unfold serialize_target_data deserialize_target_data
  show (if FORMAT_VERSION = FORMAT_VERSION then
      read_targets feature_sz ts.length ((List.map encode_target ts).flatten)
    else none) = some ts
  rw [if_pos rfl]
  have h := read_targets_encode ts []
  rw [List.append_nil] at h
  exact h

/-! ## Claim C3 -/

/-- C3: the host best-match scoring picks a database entry whose
popcount score against the detected features is maximal, and on a tie
the earliest declared entry wins; in particular for detected features
`{f, d, c}` the profiles `rv64gc` and `rv64gcv` both score 3 and the
earlier `rv64gc` is chosen. -/
theorem c3_best_match :
    ∀ features : FeatureList,
      (∃ j, ∃ hj : j < cpus.length,
        best_cpu_score features =
          ((cpus.get ⟨j, hj⟩).cpu, score features (cpus.get ⟨j, hj⟩).features) ∧
        (∀ i, (hi : i < cpus.length) →
          score features (cpus.get ⟨i, hi⟩).features ≤
            score features (cpus.get ⟨j, hj⟩).features) ∧
        (∀ i, (hi : i < cpus.length) → i < j →
          score features (cpus.get ⟨i, hi⟩).features <
            score features (cpus.get ⟨j, hj⟩).features)) ∧
      (best_cpu_score {Feature.f, Feature.d, Feature.c}).1 = CPU.rv64gc ∧
      score {Feature.f, Feature.d, Feature.c} Feature.rv64gc = 3 ∧
      score {Feature.f, Feature.d, Feature.c} Feature.rv64gcv = 3 := by
  intro features
  refine ⟨?_, by decide, by decide, by decide⟩
  unfold best_cpu_score
  obtain ⟨A, B, C⟩ := foldl_best_spec features cpus (CPU.generic, 0)
  rcases C with hC | ⟨j, hj, hF, hlt, hearly⟩
  · have h0 : 0 < cpus.length := by decide
    have hsc0 : score features (cpus.get ⟨0, h0⟩).features = 0 := score_generic features
    refine ⟨0, h0, ?_, ?_, ?_⟩
    · rw [hC, hsc0]
      rfl
    · intro i hi
      have hB := B i hi
      rw [hC] at hB
      rw [hsc0]
      exact hB
    · intro i hi hij
      exact absurd hij (Nat.not_lt_zero i)
  · refine ⟨j, hj, hF, ?_, ?_⟩
    · intro i hi
      have hB := B i hi
      rw [hF] at hB
      exact hB
    · intro i hi hij
      have hE := hearly i hi hij
      rw [hF] at hE
      exact hE


/-- C3 witness: the theorem applied to the detected feature set
`{f, d, c}`. -/
theorem c3_best_match_witness :
    (best_cpu_score {Feature.f, Feature.d, Feature.c}).1 = CPU.rv64gc :=
  (c3_best_match {Feature.f, Feature.d, Feature.c}).2.1

/-! ## Claim C4 -/

/-- C4, counterexample: for a structurally trivial blob (an empty target
list) the claim requires a distinct rejected outcome with a reason;
instead `pkgimg_init_cb` returns index 0 with the rejection reason left
unset, and `jl_check_pkgimage_clones` accepts. -/
theorem c4_counterexample :
    pkgimg_init_cb [⟨"rv64gc", "", ∅, 0, ∅, 0⟩] [] = (0, none) ∧
    jl_check_pkgimage_clones [⟨"rv64gc", "", ∅, 0, ∅, 0⟩] [] =
      CheckResult.accepted := by
  exact ⟨rfl, by decide⟩

/-- C4, amended: `pkgimg_init_cb` returns the index of the last
deserialized entry whose name equals the live target's name, returns 0
when no entry matches (including for an empty list), and never signals a
rejected outcome: the rejection reason stays unset, and (whenever the
entry count fits in 32 bits) `jl_check_pkgimage_clones` accepts. -/
theorem c4_match_semantics :
    ∀ (jt : List TargetData) (pkg : List ImgTarget),
      (pkgimg_init_cb jt pkg).2 = none ∧
      (((pkgimg_init_cb jt pkg).1 = 0 ∧
          ∀ j, (hj : j < pkg.length) → (pkg.get ⟨j, hj⟩).name ≠ jt.headI.name) ∨
        (∃ j, ∃ hj : j < pkg.length,
          (pkgimg_init_cb jt pkg).1 = j ∧
          (pkg.get ⟨j, hj⟩).name = jt.headI.name ∧
          ∀ j2, (hj2 : j2 < pkg.length) → j < j2 →
            (pkg.get ⟨j2, hj2⟩).name ≠ jt.headI.name)) ∧
      (pkg.length ≤ UINT32_MAX →
        jl_check_pkgimage_clones jt pkg = CheckResult.accepted) := by
  intro jt pkg
  have hspec := best_idx_loop_spec jt.headI.name pkg 0 0
  have hMAX : UINT32_MAX = 4294967295 := rfl
  have hne : ∀ hlen : pkg.length ≤ UINT32_MAX,
      (pkgimg_init_cb jt pkg).1 ≠ UINT32_MAX := by
    intro hlen
    rcases hspec with ⟨hres, hnone⟩ | ⟨j, hj, hname, hres, hafter⟩
    · show best_idx_loop jt.headI.name pkg 0 0 ≠ UINT32_MAX
      rw [hres]
      omega
    · show best_idx_loop jt.headI.name pkg 0 0 ≠ UINT32_MAX
      rw [hres]
      omega
  refine ⟨rfl, ?_, ?_⟩
  · rcases hspec with ⟨hres, hnone⟩ | ⟨j, hj, hname, hres, hafter⟩
    · exact Or.inl ⟨hres, hnone⟩
    · exact Or.inr ⟨j, hj, hres.trans (Nat.zero_add j), hname, hafter⟩
  · intro hlen
    unfold jl_check_pkgimage_clones
    rw [if_neg (hne hlen)]

/-- C4 witness: the amended theorem applied to a one-target process and
a one-entry package image. -/
theorem c4_match_semantics_witness :
    jl_check_pkgimage_clones [⟨"generic", "", ∅, 0, ∅, 0⟩]
      [⟨"generic", ∅, [], 0⟩] = CheckResult.accepted :=
  (c4_match_semantics [⟨"generic", "", ∅, 0, ∅, 0⟩] [⟨"generic", ∅, [], 0⟩]).2.2
    (by decide)

/-! ## Claim C5 -/

/-- C5: the process target state machine's guards: a primary
initialization with a non-empty JIT target list fails with "already
initialized"; a secondary match with an empty list fails with "not
initialized"; a secondary match with more than one live target fails
with "Expected only one JIT target". -/
theorem c5_state_machine_guards :
    (∀ (jt : List TargetData) (env : HostEnv) (cmdline : List TargetData)
        (sysimg : List ImgTarget), jt ≠ [] →
      jl_init_processor_sysimg jt env cmdline sysimg =
        Except.error "JIT targets already initialized") ∧
    (∀ pkg : List ImgTarget,
      jl_init_processor_pkgimg [] pkg =
        Except.error "JIT targets not initialized") ∧
    (∀ (jt : List TargetData) (pkg : List ImgTarget), 1 < jt.length →
      jl_init_processor_pkgimg jt pkg =
        Except.error "Expected only one JIT target") := by
  refine ⟨?_, ?_, ?_⟩
  · intro jt env cmdline sysimg hne
    cases jt with
    | nil => exact absurd rfl hne
    | cons a l => rfl
  · intro pkg
    rfl
  · intro jt pkg h
    unfold jl_init_processor_pkgimg
    have h1 : jt.isEmpty = false := by
      cases jt with
      | nil => simp at h
      | cons a l => rfl
    rw [h1]
    rw [if_neg Bool.false_ne_true]
    rw [if_pos h]

/-- C5 witness: the three guards fired on concrete states. -/
theorem c5_state_machine_guards_witness :
    jl_init_processor_sysimg [⟨"generic", "", ∅, 0, ∅, 0⟩] ⟨"generic", ∅, ""⟩ [] [] =
      Except.error "JIT targets already initialized" ∧
    jl_init_processor_pkgimg ([] : List TargetData) ([] : List ImgTarget) =
      Except.error "JIT targets not initialized" ∧
    jl_init_processor_pkgimg
        [⟨"generic", "", ∅, 0, ∅, 0⟩, ⟨"x", "", ∅, 0, ∅, 0⟩] [] =
      Except.error "Expected only one JIT target" :=
  ⟨c5_state_machine_guards.1 [⟨"generic", "", ∅, 0, ∅, 0⟩] ⟨"generic", ∅, ""⟩ [] []
      (by decide),
   c5_state_machine_guards.2.1 [],
   c5_state_machine_guards.2.2
      [⟨"generic", "", ∅, 0, ∅, 0⟩, ⟨"x", "", ∅, 0, ∅, 0⟩] [] (by decide)⟩

/-! ## Claim C6 -/

/-- C6, counterexample: the microarchitecture string `"rv64gc"` names
the known profile `rv64gc` exactly, yet host selection ignores it (the
uarch handling only recognizes sifive substrings) and returns the
score-based guess `generic` instead. -/
theorem c6_counterexample :
    find_cpu "rv64gc" =
      some ⟨"rv64gc", CPU.rv64gc, CPU.generic, 0, Feature.rv64gc⟩ ∧
    select_host_cpu (uarch_to_cpu_name "rv64gc") (∅ : FeatureList) = CPU.generic ∧
    CPU.generic ≠ CPU.rv64gc := by
  refine ⟨by decide, by decide, by decide⟩

/-- C6, amended: when the microarchitecture string contains `"sifive"`
and one of the model substrings (u74/u84/u87/u89/u9), the derived
profile name is looked up exactly in the database and that profile's id
overrides the score-based guess; for every other microarchitecture
string the score-based guess stands. -/
theorem c6_uarch_override :
    ∀ (uarch : String) (features : FeatureList),
      (uarch_to_cpu_name uarch = "generic" ∧
        select_host_cpu (uarch_to_cpu_name uarch) features =
          (best_cpu_score features).1) ∨
      (∃ spec, find_cpu (uarch_to_cpu_name uarch) = some spec ∧
        select_host_cpu (uarch_to_cpu_name uarch) features = spec.cpu) := by
  intro uarch features
  by_cases h1 : hasSub "sifive".data uarch.data = true
  · by_cases h2 : hasSub "u74".data uarch.data = true
    · have hn : uarch_to_cpu_name uarch = "sifive-u74-mc" := by
        unfold uarch_to_cpu_name
        rw [if_pos h1, if_pos h2]
      rw [hn]
      exact Or.inr ⟨⟨"sifive-u74-mc", CPU.sifive_u74, CPU.rv64gc, 0,
        Feature.sifive_u74⟩, rfl, rfl⟩
    · by_cases h3 : hasSub "u84".data uarch.data = true
      · have hn : uarch_to_cpu_name uarch = "sifive-u84-mc" := by
          unfold uarch_to_cpu_name
          rw [if_pos h1, if_neg h2, if_pos h3]
        rw [hn]
        exact Or.inr ⟨⟨"sifive-u84-mc", CPU.sifive_u84, CPU.sifive_u74, 0,
          Feature.sifive_u84⟩, rfl, rfl⟩
      · by_cases h4 : hasSub "u87".data uarch.data = true
        · have hn : uarch_to_cpu_name uarch = "sifive-u87-mc" := by
            unfold uarch_to_cpu_name
            rw [if_pos h1, if_neg h2, if_neg h3, if_pos h4]
          rw [hn]
          exact Or.inr ⟨⟨"sifive-u87-mc", CPU.sifive_u87, CPU.sifive_u84, 0,
            Feature.sifive_u87⟩, rfl, rfl⟩
        · by_cases h5 : hasSub "u89".data uarch.data = true
          · have hn : uarch_to_cpu_name uarch = "sifive-u89-mc" := by
              unfold uarch_to_cpu_name
              rw [if_pos h1, if_neg h2, if_neg h3, if_neg h4, if_pos h5]
            rw [hn]
            exact Or.inr ⟨⟨"sifive-u89-mc", CPU.sifive_u89, CPU.sifive_u87, 0,
              Feature.sifive_u89⟩, rfl, rfl⟩
          · by_cases h6 : hasSub "u9".data uarch.data = true
            · have hn : uarch_to_cpu_name uarch = "sifive-u9-mc" := by
                unfold uarch_to_cpu_name
                rw [if_pos h1, if_neg h2, if_neg h3, if_neg h4, if_neg h5,
                  if_pos h6]
              rw [hn]
              exact Or.inr ⟨⟨"sifive-u9-mc", CPU.sifive_u9, CPU.sifive_u89, 0,
                Feature.sifive_u9⟩, rfl, rfl⟩
            · have hn : uarch_to_cpu_name uarch = "generic" := by
                unfold uarch_to_cpu_name
                rw [if_pos h1, if_neg h2, if_neg h3, if_neg h4, if_neg h5,
                  if_neg h6]
              rw [hn]
              exact Or.inl ⟨rfl, rfl⟩
  · have hn : uarch_to_cpu_name uarch = "generic" := by
      unfold uarch_to_cpu_name
      rw [if_neg h1]
    rw [hn]
    exact Or.inl ⟨rfl, rfl⟩

/-! ## Claim C7 -/

/-- C7: in both resolved multi-target lists (the JIT list of
`ensure_jit_target` and the image list of `jl_get_llvm_clone_targets`),
every target at index 1 or greater has CLONE_ALL set, and the target at
index 0 is exactly the resolved descriptor, untouched by the marking
step. -/
theorem c7_clone_all_after_first :
    ∀ (env : HostEnv) (cmdline : List TargetData),
      (∀ i, (hi : i < (ensure_jit_target env cmdline).length) → 1 ≤ i →
        ((ensure_jit_target env cmdline).get ⟨i, hi⟩).en_flags &&&
          JL_TARGET_CLONE_ALL ≠ 0) ∧
      (ensure_jit_target env cmdline).headI =
        (resolve_targets env cmdline true).headI ∧
      (∀ i, (hi : i < (clone_targets_list env cmdline).length) → 1 ≤ i →
        ((clone_targets_list env cmdline).get ⟨i, hi⟩).en_flags &&&
          JL_TARGET_CLONE_ALL ≠ 0) ∧
      (clone_targets_list env cmdline).headI =
        (resolve_targets env cmdline true).headI := by
  intro env cmdline
  exact ⟨fun i hi h1 => set_clone_all_get_tail _ i hi h1,
    set_clone_all_headI _,
    fun i hi h1 => set_clone_all_get_tail _ i hi h1,
    set_clone_all_headI _⟩

/-- C7 witness: in a concrete two-target list the second target carries
CLONE_ALL. -/
theorem c7_clone_all_after_first_witness :
    ((ensure_jit_target ⟨"generic", ∅, ""⟩
        [⟨"x", "", ∅, 0, ∅, 0⟩, ⟨"y", "", ∅, 0, ∅, 0⟩]).get
      ⟨1, by decide⟩).en_flags &&& JL_TARGET_CLONE_ALL ≠ 0 :=
  (c7_clone_all_after_first ⟨"generic", ∅, ""⟩
    [⟨"x", "", ∅, 0, ∅, 0⟩, ⟨"y", "", ∅, 0, ∅, 0⟩]).1 1 (by decide) (by decide)

/-! ## Claim C9 -/

/-- C9: `jl_cpu_has_fma` is the conjunction of the detected `f` and
`zfa` bits for width 32, of `d` and `zfa` for width 64, and is false for
every other width. -/
theorem c9_cpu_has_fma :
    ∀ (host : FeatureList) (bits : Int),
      (jl_cpu_has_fma host 32 =
        (test_nbit host Feature.f && test_nbit host Feature.zfa)) ∧
      (jl_cpu_has_fma host 64 =
        (test_nbit host Feature.d && test_nbit host Feature.zfa)) ∧
      (bits ≠ 32 → bits ≠ 64 → jl_cpu_has_fma host bits = false) := by
  intro host bits
  refine ⟨rfl, ?_, ?_⟩
  · unfold jl_cpu_has_fma
    rw [if_neg (by decide), if_pos rfl]
  · intro h32 h64
    unfold jl_cpu_has_fma
    rw [if_neg h32, if_neg h64]

/-- C9 witness: at a width other than 32 and 64 the query is false. -/
theorem c9_cpu_has_fma_witness : jl_cpu_has_fma ∅ 16 = false :=
  (c9_cpu_has_fma ∅ 16).2.2 (by decide) (by decide)

/-! ## Claim C10 -/

/-- C10: the floating-point mode controls are no-ops: the two getters
always return 0 and the two setters return their argument unchanged (the
source functions touch no state). -/
theorem c10_fp_mode_noops :
    jl_get_zero_subnormals = 0 ∧ jl_get_default_nans = 0 ∧
    (∀ x : Int, jl_set_zero_subnormals x = x) ∧
    (∀ x : Int, jl_set_default_nans x = x) :=
  ⟨rfl, rfl, fun x => rfl, fun x => rfl⟩

end RISCV64
